import Mathlib

/-!
Verification development for the grid map / pathfinding / fog-of-war core of a
real-time-strategy game (source files `map.py` and `map/fog_of_war.py`).

Embedding conventions:
* Python `int` is `ℤ`; Python `//` (floor division) is `Int.fdiv`.
* Python floats are modelled exactly: `PyFloat` below is an exact rational
  (numerator/denominator pair, kept unreduced so every operation is a plain
  integer computation), with comparison and equality decided by cross
  multiplication — Python float comparison is value comparison.  `math.inf` is
  modelled by `Option PyFloat` with `none` standing for infinity (`addInf`,
  `ltInf` below mirror the behaviour of `inf + x` and `<` on the values this
  program produces).  The float literals `1.4`, `1.001` become the exact
  rationals `1.4`, `1.001`.
* Python dicts keyed by grid positions are modelled as functions into `Option`
  (`none` = key absent); a lookup that would raise `KeyError` is modelled by an
  `Option`-valued result, with `none` propagated as the Python exception.
* Python sets of grid positions are `Finset (ℤ × ℤ)` (for the fog of war) or
  membership-queried lists (for the priority queue's `_contains` set).
* `random`, sprites, textures and all other rendering-only state are dropped:
  for the fog of war the keys of `grids_to_sprites` are kept (they determine
  the drawn fog), the sprite objects themselves are not.
-/

/-- `GridPosition` from `map.py`: an integer pair (column, row). -/
abbrev GridPosition : Type := ℤ × ℤ

/-- `TILE_WIDTH` constant from `map.py`. -/
def TILE_WIDTH : ℤ := 60

/-- `TILE_HEIGHT` constant from `map.py`. -/
def TILE_HEIGHT : ℤ := 60

/-- `GridHandler.position_to_grid`: floor-divide world coordinates by the tile
dimensions (`x // TILE_WIDTH, y // TILE_HEIGHT`). -/
def position_to_grid (x y : ℤ) : GridPosition :=
  (x.fdiv TILE_WIDTH, y.fdiv TILE_HEIGHT)

/-- `GridHandler.grid_to_position`: world-space center of a grid cell
(`grid[0] * TILE_WIDTH + TILE_WIDTH // 2`, similarly for y). -/
def grid_to_position (grid : GridPosition) : ℤ × ℤ :=
  (grid.1 * TILE_WIDTH + TILE_WIDTH.fdiv 2, grid.2 * TILE_HEIGHT + TILE_HEIGHT.fdiv 2)

/-- `GridHandler.adjacent_offsets`, in source order. -/
def adjacent_offsets : List GridPosition :=
  [(-1, -1), (-1, 0), (-1, 1), (0, 1), (0, -1), (1, -1), (1, 0), (1, 1)]

/-- `GridHandler.adjacent_grids(x, y)`: the 8 offsets applied to
`position_to_grid(x, y)`. -/
def adjacent_grids (x y : ℤ) : List GridPosition :=
  let grid := position_to_grid x y
  adjacent_offsets.map fun p => (grid.1 + p.1, grid.2 + p.2)

/-- `GridHandler.diagonal(first_id, second_id)`:
`first_id[0] != second_id[0] and first_id[1] != second_id[1]`. -/
def diagonal (first_id second_id : GridPosition) : Bool :=
  decide (first_id.1 ≠ second_id.1) && decide (first_id.2 ≠ second_id.2)

/-- The in-bounds predicate used by `Map.in_bounds`:
`0 <= p[0] < columns and 0 <= p[1] < rows`. -/
def inBoundsP (columns rows : ℤ) (p : GridPosition) : Prop :=
  0 ≤ p.1 ∧ p.1 < columns ∧ 0 ≤ p.2 ∧ p.2 < rows

instance (columns rows : ℤ) (p : GridPosition) : Decidable (inBoundsP columns rows p) := by
  unfold inBoundsP; infer_instance

/-- `Map.in_bounds(grids)` as a list filter, parameterized by the grid size. -/
def inBoundsFilter (columns rows : ℤ) (grids : List GridPosition) : List GridPosition :=
  grids.filter fun p => decide (inBoundsP columns rows p)

/-- An exact rational standing in for a Python float value: a
numerator/denominator pair with positive denominator, not kept reduced, so
that all arithmetic is kernel-computable integer arithmetic. -/
structure PyFloat where
  num : ℤ
  den : ℤ
deriving DecidableEq

instance : OfNat PyFloat n := ⟨⟨(n : ℤ), 1⟩⟩

instance : OfScientific PyFloat :=
  ⟨fun m b e => if b then ⟨(m : ℤ), (10 : ℤ) ^ e⟩ else ⟨(m : ℤ) * (10 : ℤ) ^ e, 1⟩⟩

instance : Add PyFloat :=
  ⟨fun a b => ⟨a.num * b.den + b.num * a.den, a.den * b.den⟩⟩

instance : Mul PyFloat :=
  ⟨fun a b => ⟨a.num * b.num, a.den * b.den⟩⟩

/-- Python `<` on float values (cross multiplication; denominators of all the
values this program builds are positive). -/
def PyFloat.blt (a b : PyFloat) : Bool :=
  decide (a.num * b.den < b.num * a.den)

/-- Python `==` on float values. -/
def PyFloat.beq (a b : PyFloat) : Bool :=
  decide (a.num * b.den = b.num * a.den)

/-- One step of the inner loop of `Map.calculate_distances_between_nodes`:
store `grid ↦ distance` in a node's `costs` dict. -/
def storeCost (terrain_cost : GridPosition → PyFloat) (node : GridPosition)
    (costs : GridPosition → Option PyFloat) (grid : GridPosition) : GridPosition → Option PyFloat :=
  fun g =>
    if g = grid then
      some ((if diagonal node grid then (1.4 : PyFloat) else 1) * (terrain_cost node + terrain_cost grid))
    else costs g

/-- `Map.calculate_distances_between_nodes`, restricted to one node: iterate over
`self.in_bounds(self.adjacent_grids(*node.position))` and store
`distance = (1.4 if diagonal else 1) * (node.terrain_cost + adjacent_node.terrain_cost)`. -/
def node_costs (columns rows : ℤ) (terrain_cost : GridPosition → PyFloat)
    (node : GridPosition) : GridPosition → Option PyFloat :=
  (inBoundsFilter columns rows
      (adjacent_grids (grid_to_position node).1 (grid_to_position node).2)).foldl
    (storeCost terrain_cost node) (fun _ => none)

/-- `Map.generate_nodes`: one node per `(x, y)` for `x in range(self.columns)`,
`y in range(self.rows)`, in creation order. -/
def generate_nodes (columns rows : ℤ) : List GridPosition :=
  (List.range columns.toNat).flatMap fun x =>
    (List.range rows.toNat).map fun y => ((x : ℤ), (y : ℤ))

/-- The state of a `Map` object together with all of its `MapNode`s.
Per-node attributes (`_unit_id`, `_building_id`, `terrain_cost`, `costs`) are
functions from the node's grid position; `units` / `buildings` are the map's
reverse-lookup dicts (`none` = key absent, `some v` = key present with value
`v`, where `v` itself is `Optional[UnitId]`); `nodes` records the keys of the
node dict in creation order. -/
structure Map where
  columns : ℤ
  rows : ℤ
  terrain_cost : GridPosition → PyFloat
  _unit_id : GridPosition → Option ℕ
  _building_id : GridPosition → Option ℕ
  units : GridPosition → Option (Option ℕ)
  buildings : GridPosition → Option (Option ℕ)
  costs : GridPosition → GridPosition → Option PyFloat
  nodes : List GridPosition

/-- `Map.__init__(width, height, grid_width, grid_height)` followed by
`generate_nodes()` and `calculate_distances_between_nodes()`.
`rows = height // grid_height` and `columns = width // grid_width` raise
`ZeroDivisionError` (modelled as `none`) when a tile dimension is zero; there is
no other validation.  Every generated node starts with `_unit_id = None`,
`_building_id = None`, `terrain_cost = 1`; the reverse-lookup dicts start empty. -/
def Map.init (width height grid_width grid_height : ℤ) : Option Map :=
  if grid_height = 0 then none
  else if grid_width = 0 then none
  else
    let rows := height.fdiv grid_height
    let columns := width.fdiv grid_width
    some
      { columns := columns
        rows := rows
        terrain_cost := fun _ => 1
        _unit_id := fun _ => none
        _building_id := fun _ => none
        units := fun _ => none
        buildings := fun _ => none
        costs := fun node => node_costs columns rows (fun _ => 1) node
        nodes := generate_nodes columns rows }

/-- `Map.in_bounds` method. -/
def Map.in_bounds (m : Map) (grids : List GridPosition) : List GridPosition :=
  inBoundsFilter m.columns m.rows grids

/-- `MapNode.unit_id` property getter (`return self._unit_id`). -/
def Map.unit_id (m : Map) (g : GridPosition) : Option ℕ :=
  m._unit_id g

/-- `MapNode.building_id` property getter.  The source reads
`return self._unit_id` — it returns the unit field, not the building field. -/
def Map.building_id (m : Map) (g : GridPosition) : Option ℕ :=
  m._unit_id g

/-- `MapNode.unit_id` property setter:
`self.map.units[self.grid] = value; self._unit_id = value`. -/
def Map.set_unit_id (m : Map) (g : GridPosition) (value : Option ℕ) : Map :=
  { m with
    units := fun p => if p = g then some value else m.units p
    _unit_id := fun p => if p = g then value else m._unit_id p }

/-- `MapNode.building_id` property setter:
`self.map.buildings[self.grid] = value; self._building_id = value`. -/
def Map.set_building_id (m : Map) (g : GridPosition) (value : Option ℕ) : Map :=
  { m with
    buildings := fun p => if p = g then some value else m.buildings p
    _building_id := fun p => if p = g then value else m._building_id p }

/-- `MapNode.walkable` property:
`self._unit_id is None and self._building_id is None`. -/
def Map.walkable (m : Map) (g : GridPosition) : Prop :=
  m._unit_id g = none ∧ m._building_id g = none

instance (m : Map) (g : GridPosition) : Decidable (m.walkable g) := by
  unfold Map.walkable; infer_instance

/-- `Map.adjacent_nodes(x, y)`: nodes at `self.in_bounds(self.adjacent_grids(x, y))`. -/
def Map.adjacent_nodes (m : Map) (x y : ℤ) : List GridPosition :=
  m.in_bounds (adjacent_grids x y)

/-- `Map.walkable_adjacent(x, y)`: adjacent nodes filtered by `walkable`. -/
def Map.walkable_adjacent (m : Map) (x y : ℤ) : List GridPosition :=
  (m.adjacent_nodes x y).filter fun n => decide (m.walkable n)

/-- `MapNode.walkable_adjacent` property: `self.map.walkable_adjacent(*self.position)`. -/
def Map.node_walkable_adjacent (m : Map) (g : GridPosition) : List GridPosition :=
  m.walkable_adjacent (grid_to_position g).1 (grid_to_position g).2

/-! ### Pathfinder (`PriorityQueue`, `Pathfinder.find_path`) -/

/-- `math.inf`-extended addition on the floats the search manipulates:
`none` is `math.inf`, and `inf + c = inf`. -/
def addInf (a : Option PyFloat) (c : PyFloat) : Option PyFloat :=
  match a with
  | none => none
  | some q => some (q + c)

/-- `<` on `math.inf`-extended values: `inf < x` is false, `q < inf` is true. -/
def ltInf (a b : Option PyFloat) : Bool :=
  match a, b with
  | none, _ => false
  | some _, none => true
  | some q, some r => q.blt r

/-- Python `==` on `math.inf`-extended values. -/
def eqInf (a b : Option PyFloat) : Bool :=
  match a, b with
  | none, none => true
  | none, some _ => false
  | some _, none => false
  | some q, some r => q.beq r

/-- Python `<=` on the heap entries `(priority, item)`: lexicographic tuple
comparison by float value, with grid positions themselves compared
lexicographically. -/
def entryLe (a b : Option PyFloat × GridPosition) : Bool :=
  ltInf a.1 b.1 ||
    (eqInf a.1 b.1 &&
      (decide (a.2.1 < b.2.1) || (decide (a.2.1 = b.2.1) && decide (a.2.2 ≤ b.2.2))))

/-- `heapq.heappush`, modelled on a list kept sorted by `entryLe` so that the
head is always the heap minimum (`heappop` returns the minimum element; ties
between equal tuples are irrelevant). -/
def heappush (e : Option PyFloat × GridPosition) :
    List (Option PyFloat × GridPosition) → List (Option PyFloat × GridPosition)
  | [] => [e]
  | x :: xs => if entryLe e x then e :: x :: xs else x :: heappush e xs

/-- The `PriorityQueue` class from `map.py`: a heap of `(priority, item)` pairs
plus the auxiliary `_contains` membership set (which `put` grows and `get`
never shrinks). -/
structure PriorityQueue where
  elements : List (Option PyFloat × GridPosition)
  _contains : List GridPosition

/-- `PriorityQueue.put(item, priority)`:
`self._contains.add(item); heapq.heappush(self.elements, (priority, item))`. -/
def PriorityQueue.put (q : PriorityQueue) (item : GridPosition) (priority : Option PyFloat) :
    PriorityQueue :=
  { elements := heappush (priority, item) q.elements
    _contains := item :: q._contains }

/-- The mutable state of one `Pathfinder.find_path` call: the `unexplored`
priority queue, the `previous` predecessor dict, and the
`cost_so_far = defaultdict(lambda: math.inf)` dict (`none` = `math.inf`). -/
structure SearchState where
  unexplored : PriorityQueue
  previous : GridPosition → Option GridPosition
  cost_so_far : GridPosition → Option PyFloat

/-- The predecessor-walking loop of `Pathfinder.reconstruct_path`:
`path = [map_nodes[current]]; while current in previous: current = previous[current]; path.append(map_nodes[current])`.
Node lookups on positions outside the generated grid raise `KeyError` (`none`);
the `ℕ` argument is recursion fuel for the `while` loop (`none` on
exhaustion models non-termination, which no reachable search state produces). -/
def reconstruct_chain (columns rows : ℤ) (previous : GridPosition → Option GridPosition) :
    GridPosition → ℕ → Option (List GridPosition)
  | _, 0 => none
  | current, fuel + 1 =>
    if inBoundsP columns rows current then
      match previous current with
      | none => some [current]
      | some p => (reconstruct_chain columns rows previous p fuel).map fun t => current :: t
    else none

/-- `Pathfinder.reconstruct_path` composed with `nodes_list_to_path`: reverse
the predecessor chain into start-to-goal order and convert every node to its
world position. -/
def reconstruct_path (columns rows : ℤ) (previous : GridPosition → Option GridPosition)
    (current : GridPosition) (fuel : ℕ) : Option (List (ℤ × ℤ)) :=
  (reconstruct_chain columns rows previous current fuel).map fun l =>
    l.reverse.map grid_to_position

/-- The inner `for adj in (a for a in node.walkable_adjacent if a.grid not in unexplored)`
loop of `find_path`, processing the walkable neighbors of the popped node
`current`.  For each neighbor not yet in the queue's `_contains` set:
`total = cost_so_far[current] + node.costs[adj.grid]`, and on
`total < cost_so_far[adj.grid]` record predecessor and cost and `put` the
neighbor with priority `total + heuristic(adj.grid, end) * 1.001`.
A missing `costs` entry would raise `KeyError` (`none`). -/
def processAdjs (m : Map) (hr : GridPosition → GridPosition → PyFloat) (endG current : GridPosition) :
    SearchState → List GridPosition → Option SearchState
  | s, [] => some s
  | s, adj :: rest =>
    if adj ∈ s.unexplored._contains then processAdjs m hr endG current s rest
    else
      match m.costs current adj with
      | none => none
      | some c =>
        let total := addInf (s.cost_so_far current) c
        if ltInf total (s.cost_so_far adj) then
          processAdjs m hr endG current
            { unexplored := s.unexplored.put adj (addInf total (hr adj endG * 1.001))
              previous := fun g => if g = adj then some current else s.previous g
              cost_so_far := fun g => if g = adj then total else s.cost_so_far g }
            rest
        else processAdjs m hr endG current s rest

/-- The result of one iteration of the `while unexplored:` loop. -/
inductive StepResult where
  | finished (path : List (ℤ × ℤ))
  | continueSearch (s : SearchState)

/-- One iteration of the `while unexplored:` loop of `find_path`: if the queue
is empty the loop exits returning `[]`; otherwise pop the minimum entry, return
the reconstructed path if it is `end`, else expand its walkable neighbors.
`map_nodes[current]` raises `KeyError` (`none`) for a position with no node. -/
def searchStep (m : Map) (hr : GridPosition → GridPosition → PyFloat) (endG : GridPosition)
    (s : SearchState) : Option StepResult :=
  match s.unexplored.elements with
  | [] => some (.finished [])
  | (_, current) :: rest =>
    if current = endG then
      (reconstruct_path m.columns m.rows s.previous current
          (s.unexplored._contains.length + 1)).map .finished
    else if inBoundsP m.columns m.rows current then
      (processAdjs m hr endG current
          { s with unexplored := { elements := rest, _contains := s.unexplored._contains } }
          (m.node_walkable_adjacent current)).map .continueSearch
    else none

/-- The `while unexplored:` loop, driven by recursion fuel (the loop terminates
on every input because `_contains` only grows and bounds the number of pushes;
`none` on fuel exhaustion). -/
def findPathAux (m : Map) (hr : GridPosition → GridPosition → PyFloat) (endG : GridPosition) :
    SearchState → ℕ → Option (List (ℤ × ℤ))
  | _, 0 => none
  | s, fuel + 1 =>
    match searchStep m hr endG s with
    | none => none
    | some (.finished p) => some p
    | some (.continueSearch s1) => findPathAux m hr endG s1 fuel

/-- `Pathfinder.find_path(start, end)`.  The source computes
`heuristic = hypot` (float Euclidean distance); the heuristic is taken as a
parameter `hr` here since `hypot` is irrational — the theorems below either
hold for every heuristic or instantiate `hr` with an explicit rational
approximation of `hypot`.  Initialization mirrors the source:
`unexplored = PriorityQueue(start, heuristic(start, end) * 1.001)`,
`cost_so_far[start] = 0`, `previous = {}`. -/
def find_path (m : Map) (hr : GridPosition → GridPosition → PyFloat)
    (start endG : GridPosition) (fuel : ℕ) : Option (List (ℤ × ℤ)) :=
  findPathAux m hr endG
    { unexplored := PriorityQueue.put { elements := [], _contains := [] } start
        (some (hr start endG * 1.001))
      previous := fun _ => none
      cost_so_far := fun g => if g = start then some 0 else none }
    fuel

/-! ### Fog of war (`map/fog_of_war.py`) -/

/-- The three-state fog classification of a tile. -/
inductive FogState where
  | UNSEEN
  | DIMMED
  | CLEAR
deriving DecidableEq

/-- The state of a `FogOfWar` object: the three grid sets and the keys of the
`grids_to_sprites` dict (a key is present exactly when a dark or grey fog
sprite covers that tile; the sprite objects and their spatial partition into
sprite lists are rendering-only and dropped). -/
structure FogOfWar where
  unexplored : Finset GridPosition
  visible : Finset GridPosition
  explored : Finset GridPosition
  grids_to_sprites : Finset GridPosition

/-- `FogOfWar.__init__` (with `create_dark_sprites` run in game mode):
`unexplored` starts as all map grids, `visible` and `explored` empty, and a
dark sprite is created for every unexplored tile. -/
def FogOfWar.init (map_grids : Finset GridPosition) : FogOfWar :=
  { unexplored := map_grids
    visible := ∅
    explored := ∅
    grids_to_sprites := map_grids }

/-- `FogOfWar.reveal_nodes(revealed)`: `self.visible.update(revealed)`. -/
def FogOfWar.reveal_nodes (f : FogOfWar) (revealed : Finset GridPosition) : FogOfWar :=
  { f with visible := f.visible ∪ revealed }

/-- `FogOfWar.update()` (the per-frame reconcile): remove the sprites of
`revealed = visible ∩ grids_to_sprites`; add a grey fog sprite for every tile
of `fog = explored - visible` that has no sprite; then
`explored |= visible`, `unexplored -= visible`, `visible.clear()`. -/
def FogOfWar.update (f : FogOfWar) : FogOfWar :=
  let revealed := f.visible ∩ f.grids_to_sprites
  let remaining := f.grids_to_sprites \ revealed
  let fog := f.explored \ f.visible
  { unexplored := f.unexplored \ f.visible
    visible := ∅
    explored := f.explored ∪ f.visible
    grids_to_sprites := remaining ∪ (fog \ remaining) }

/-- The fog state of a coordinate, read off the tracker state exactly as the
game renders it: a tile still in `unexplored` is covered by its dark sprite
(UNSEEN); otherwise a tile with a sprite carries the grey fog texture (DIMMED);
a tile with no sprite is drawn clear (CLEAR).  The source has no named
`fog_state` query — this is the classification its sprite dict realizes. -/
def fog_state (f : FogOfWar) (c : GridPosition) : FogState :=
  if c ∈ f.unexplored then .UNSEEN
  else if c ∈ f.grids_to_sprites then .DIMMED
  else .CLEAR

/-- One game frame: every observer's `reveal_nodes` report, then `update()`. -/
def frameStep (f : FogOfWar) (reports : List (Finset GridPosition)) : FogOfWar :=
  (reports.foldl FogOfWar.reveal_nodes f).update

/-- A run of successive frames. -/
def runFrames (f : FogOfWar) : List (List (Finset GridPosition)) → FogOfWar
  | [] => f
  | r :: rs => runFrames (frameStep f r) rs

/-- An arbitrary interleaving of `reveal_nodes` and `update` calls. -/
inductive FogOp where
  | reveal (s : Finset GridPosition)
  | update

/-- Apply one `FogOp`. -/
def applyFogOp (f : FogOfWar) : FogOp → FogOfWar
  | .reveal s => f.reveal_nodes s
  | .update => f.update

/-- Apply a sequence of `FogOp`s. -/
def runFogOps (f : FogOfWar) (ops : List FogOp) : FogOfWar :=
  ops.foldl applyFogOp f

/-! ### Concrete instances used by witnesses and counterexamples -/

/-- Rational 3-decimal approximations of `√n` for the squared grid distances
that occur on the small maps below (`n ≤ 8`). -/
def sqrtApprox (n : ℤ) : PyFloat :=
  if n = 0 then 0
  else if n = 1 then 1
  else if n = 2 then 1.414
  else if n = 4 then 2
  else if n = 5 then 2.236
  else if n = 8 then 2.828
  else 3

/-- A rational stand-in for `Pathfinder.heuristic`, which is
`math.hypot(start[0] - end[0], start[1] - end[1])` in floating point: the
Euclidean distance read from the `sqrtApprox` table.  On the concrete runs
below every comparison of priorities has margin far larger than the `10⁻³`
table error, so the pop order under `hypotApprox` coincides with the pop order
under the float `hypot` heuristic. -/
def hypotApprox (a b : GridPosition) : PyFloat :=
  sqrtApprox ((a.1 - b.1) ^ 2 + (a.2 - b.2) ^ 2)

/-- Fallback used only to strip `Option` from `Map.init` on inputs where it
provably succeeds. -/
def fallbackMap : Map :=
  { columns := 0, rows := 0, terrain_cost := fun _ => 1
    _unit_id := fun _ => none, _building_id := fun _ => none
    units := fun _ => none, buildings := fun _ => none
    costs := fun _ _ => none, nodes := [] }

/-- A generated 3×3 map (`Map(180, 180, 60, 60)`), fully walkable. -/
def map3 : Map := (Map.init 180 180 60 60).getD fallbackMap

/-- A generated 2×1 map (`Map(120, 60, 60, 60)`): two nodes side by side. -/
def map21 : Map := (Map.init 120 60 60 60).getD fallbackMap

/-- A generated 1×1 map (`Map(60, 60, 60, 60)`). -/
def map11 : Map := (Map.init 60 60 60 60).getD fallbackMap

/-- Run one `while` iteration of a search, keeping only states that continue. -/
def stepSearch (m : Map) (hr : GridPosition → GridPosition → PyFloat) (endG : GridPosition) :
    Option SearchState → Option SearchState
  | none => none
  | some s =>
    match searchStep m hr endG s with
    | some (.continueSearch s1) => some s1
    | _ => none

/-- The initial state of `find_path map3 hypotApprox (0,0) (2,2)`. -/
def c3Init : SearchState :=
  { unexplored := PriorityQueue.put { elements := [], _contains := [] } (0, 0)
      (some (hypotApprox (0, 0) (2, 2) * 1.001))
    previous := fun _ => none
    cost_so_far := fun g => if g = (0, 0) then some 0 else none }

/-- The search state after two iterations (pops of `(0,0)` and `(1,1)`). -/
def c3AfterTwo : Option SearchState :=
  stepSearch map3 hypotApprox (2, 2) (stepSearch map3 hypotApprox (2, 2) (some c3Init))

/-- The search state after three iterations (the third pops `(0,1)`). -/
def c3AfterThree : Option SearchState :=
  stepSearch map3 hypotApprox (2, 2) c3AfterTwo

/-- An occupancy mutation issued by external game logic through the
`unit_id` / `building_id` property setters. -/
inductive MapOp where
  | setUnit (g : GridPosition) (value : Option ℕ)
  | setBuilding (g : GridPosition) (value : Option ℕ)

/-- Apply one occupancy mutation. -/
def applyMapOp (m : Map) : MapOp → Map
  | .setUnit g v => m.set_unit_id g v
  | .setBuilding g v => m.set_building_id g v

/-- Apply a sequence of occupancy mutations. -/
def runMapOps (m : Map) (ops : List MapOp) : Map :=
  ops.foldl applyMapOp m

/-- One walkable step: `b` is among the walkable in-bounds neighbors of `a`
(this is exactly the expansion relation of `find_path`). -/
def walkStep (m : Map) (a b : GridPosition) : Prop :=
  b ∈ m.node_walkable_adjacent a

/-- A walkable route from `start` to `g`: a chain of `walkStep`s.  The start
node itself is not required to be walkable (the search never checks it), every
later node of the route is. -/
def walkableRoute (m : Map) (start g : GridPosition) : Prop :=
  Relation.ReflTransGen (walkStep m) start g

/-- The set of generated grid coordinates of a map. -/
def gridFinset (m : Map) : Finset GridPosition :=
  (generate_nodes m.columns m.rows).toFinset

/-- Termination measure of the `while unexplored:` loop: every iteration pops
one heap entry and every push consumes an in-bounds coordinate not yet in
`_contains`. -/
def searchMeasure (m : Map) (s : SearchState) : ℕ :=
  s.unexplored.elements.length +
    2 * ((gridFinset m) \ s.unexplored._contains.toFinset).card

/-- The union of all observer reports of one frame. -/
def reportsUnion (reports : List (Finset GridPosition)) : Finset GridPosition :=
  reports.foldl (· ∪ ·) ∅

/-! ### Helper lemmas -/

lemma fdiv_center (k : ℤ) : (k * 60 + 30).fdiv 60 = k := by
  rw [Int.fdiv_eq_ediv]
  · omega
  · omega

/-- Converting a grid cell to its world-space center and back recovers the cell. -/
lemma grid_roundtrip (g : GridPosition) :
    position_to_grid (grid_to_position g).1 (grid_to_position g).2 = g := by
  have h2 : (TILE_WIDTH.fdiv 2) = 30 := by decide
  unfold position_to_grid grid_to_position TILE_WIDTH TILE_HEIGHT at *
  rw [h2]
  exact Prod.ext (fdiv_center g.1) (fdiv_center g.2)

lemma mem_generate_nodes {columns rows : ℤ} {p : GridPosition} :
    p ∈ generate_nodes columns rows ↔ inBoundsP columns rows p := by
  obtain ⟨a, b⟩ := p
  unfold generate_nodes inBoundsP
  rw [List.mem_flatMap]
  constructor
  · intro hmem
    obtain ⟨x, hx, hmem2⟩ := hmem
    rw [List.mem_range] at hx
    simp only [List.mem_map, List.mem_range, Prod.mk.injEq] at hmem2
    obtain ⟨y, hy, h1, h2⟩ := hmem2
    simp at hy
    obtain ⟨k, hk, hky⟩ := hy
    exact ⟨by omega, by omega, by omega, by omega⟩
  · intro h
    refine ⟨a.toNat, ?_, ?_⟩
    · rw [List.mem_range]; omega
    · simp only [List.mem_map, List.mem_range, Prod.mk.injEq]
      refine ⟨b, ?_, by omega, rfl⟩
      simp
      exact ⟨b.toNat, by omega, by omega⟩

lemma mem_inBoundsFilter {columns rows : ℤ} {l : List GridPosition} {p : GridPosition} :
    p ∈ inBoundsFilter columns rows l ↔ p ∈ l ∧ inBoundsP columns rows p := by
  unfold inBoundsFilter
  simp [List.mem_filter]

lemma adjacent_grids_of_position (n : GridPosition) :
    adjacent_grids (grid_to_position n).1 (grid_to_position n).2 =
      adjacent_offsets.map fun p => (n.1 + p.1, n.2 + p.2) := by
  unfold adjacent_grids
  rw [grid_roundtrip]

lemma foldl_storeCost_eq (t : GridPosition → PyFloat) (n : GridPosition) :
    ∀ (l : List GridPosition) (d : GridPosition → Option PyFloat) (b : GridPosition),
      (l.foldl (storeCost t n) d) b =
        if b ∈ l then
          some ((if diagonal n b then (1.4 : PyFloat) else 1) * (t n + t b))
        else d b
  | [], d, b => by simp
  | a :: l, d, b => by
    rw [List.foldl_cons, foldl_storeCost_eq t n l (storeCost t n d a) b]
    by_cases hl : b ∈ l
    · simp [hl, List.mem_cons]
    · by_cases hab : b = a
      · subst hab
        simp [hl, storeCost]
      · simp [hl, hab, storeCost]

lemma node_costs_eq (columns rows : ℤ) (t : GridPosition → PyFloat) (n b : GridPosition) :
    node_costs columns rows t n b =
      if b ∈ inBoundsFilter columns rows (adjacent_offsets.map fun p => (n.1 + p.1, n.2 + p.2))
      then some ((if diagonal n b then (1.4 : PyFloat) else 1) * (t n + t b))
      else none := by
  unfold node_costs
  rw [adjacent_grids_of_position, foldl_storeCost_eq]

lemma Map.init_fields {w h gw gh : ℤ} {m : Map} (hm : Map.init w h gw gh = some m) :
    m.columns = w.fdiv gw ∧ m.rows = h.fdiv gh ∧
    m.terrain_cost = (fun _ => (1 : PyFloat)) ∧
    m._unit_id = (fun _ => none) ∧ m._building_id = (fun _ => none) ∧
    m.units = (fun _ => none) ∧ m.buildings = (fun _ => none) ∧
    m.costs = (fun node => node_costs (w.fdiv gw) (h.fdiv gh) (fun _ => 1) node) ∧
    m.nodes = generate_nodes (w.fdiv gw) (h.fdiv gh) := by
  unfold Map.init at hm
  split at hm
  · exact absurd hm (by simp)
  split at hm
  · exact absurd hm (by simp)
  rw [Option.some_inj] at hm
  subst hm
  exact ⟨rfl, rfl, rfl, rfl, rfl, rfl, rfl, rfl, rfl⟩

lemma generate_nodes_eq_nil {columns rows : ℤ} (h : columns ≤ 0 ∨ rows ≤ 0) :
    generate_nodes columns rows = [] := by
  unfold generate_nodes
  rcases h with h | h
  · have hc : columns.toNat = 0 := by omega
    rw [hc]
    rfl
  · have hr : rows.toNat = 0 := by omega
    rw [hr]
    simp

/-- The occupancy dicts mirror the node occupancy fields: a present key stores
exactly the field's value, and an absent key means the field was never set. -/
def DictMirror (m : Map) : Prop :=
  (∀ c v, m.units c = some v → m._unit_id c = v) ∧
  (∀ c, m.units c = none → m._unit_id c = none) ∧
  (∀ c v, m.buildings c = some v → m._building_id c = v) ∧
  (∀ c, m.buildings c = none → m._building_id c = none)

lemma dictMirror_applyMapOp {m : Map} (hm : DictMirror m) (op : MapOp) :
    DictMirror (applyMapOp m op) := by
  obtain ⟨h1, h2, h3, h4⟩ := hm
  cases op with
  | setUnit g v =>
    refine ⟨?_, ?_, h3, h4⟩ <;> intro c
    · intro w hw
      simp only [applyMapOp, Map.set_unit_id] at hw ⊢
      by_cases hc : c = g
      · simp [hc] at hw ⊢; exact hw
      · simp [hc] at hw ⊢; exact h1 c w hw
    · intro hw
      simp only [applyMapOp, Map.set_unit_id] at hw ⊢
      by_cases hc : c = g
      · simp [hc] at hw
      · simp [hc] at hw ⊢; exact h2 c hw
  | setBuilding g v =>
    refine ⟨h1, h2, ?_, ?_⟩ <;> intro c
    · intro w hw
      simp only [applyMapOp, Map.set_building_id] at hw ⊢
      by_cases hc : c = g
      · simp [hc] at hw ⊢; exact hw
      · simp [hc] at hw ⊢; exact h3 c w hw
    · intro hw
      simp only [applyMapOp, Map.set_building_id] at hw ⊢
      by_cases hc : c = g
      · simp [hc] at hw
      · simp [hc] at hw ⊢; exact h4 c hw

lemma dictMirror_runMapOps {m : Map} (hm : DictMirror m) (ops : List MapOp) :
    DictMirror (runMapOps m ops) := by
  induction ops generalizing m with
  | nil => exact hm
  | cons op rest ih =>
    have hstep := dictMirror_applyMapOp hm op
    simpa [runMapOps] using ih hstep

lemma init_dictMirror {w h gw gh : ℤ} {m : Map} (hm : Map.init w h gw gh = some m) :
    DictMirror m := by
  obtain ⟨-, -, -, hu, hb, hun, hbn, -, -⟩ := Map.init_fields hm
  refine ⟨?_, ?_, ?_, ?_⟩ <;> intro c <;> simp [hun, hbn, hu, hb]

/-- A 1×1 map whose only node had its unit occupancy set and then cleared. -/
def c5Map : Map := (map11.set_unit_id (0, 0) (some 1)).set_unit_id (0, 0) none

/-! ### Claims -/

/-- C10: for every grid coordinate `g`,
`position_to_grid(grid_to_position(g)) = g` — converting a cell to its world
center (column/row times tile dimensions plus half a tile) and floor-dividing
back by the tile dimensions recovers the cell. -/
theorem C10_grid_position_roundtrip (g : GridPosition) :
    position_to_grid (grid_to_position g).1 (grid_to_position g).2 = g := by
  have h2 : (TILE_WIDTH.fdiv 2) = 30 := by decide
  unfold position_to_grid grid_to_position TILE_WIDTH TILE_HEIGHT at *
  rw [h2]
  exact Prod.ext (fdiv_center g.1) (fdiv_center g.2)

/-- C9: the `building_id` read property returns the node's unit occupancy
field: after `set_building_id c (some b)` on a node with no unit occupant,
reading `building_id` yields `none` (the unit field's value) and not `some b`,
even though the building field itself was written to `some b`. -/
theorem C9_building_id_reads_unit_field (m : Map) (c : GridPosition) (b : ℕ)
    (h : m._unit_id c = none) :
    (m.set_building_id c (some b)).building_id c = none ∧
    (m.set_building_id c (some b)).building_id c ≠ some b ∧
    (m.set_building_id c (some b))._building_id c = some b := by
  refine ⟨?_, ?_, ?_⟩
  · simp [Map.building_id, Map.set_building_id, h]
  · simp [Map.building_id, Map.set_building_id, h]
  · simp [Map.set_building_id]

/-- Witness for C9 on the concrete 1×1 generated map. -/
theorem C9_building_id_reads_unit_field_witness :
    (map11.set_building_id (0, 0) (some 7)).building_id (0, 0) = none ∧
    (map11.set_building_id (0, 0) (some 7)).building_id (0, 0) ≠ some 7 ∧
    (map11.set_building_id (0, 0) (some 7))._building_id (0, 0) = some 7 :=
  C9_building_id_reads_unit_field map11 (0, 0) 7 rfl

/-- C6: a node is walkable iff both occupancy fields are `None`; walkability is
false immediately after setting either occupancy to a non-none id at `c`, and
true again immediately after setting both occupancies of `c` back to none. -/
theorem C6_walkable_iff_unoccupied (m : Map) (c : GridPosition) (i j : ℕ)
    (hin : inBoundsP m.columns m.rows c) :
    (m.walkable c ↔ m._unit_id c = none ∧ m._building_id c = none) ∧
    ¬ (m.set_unit_id c (some i)).walkable c ∧
    ¬ (m.set_building_id c (some j)).walkable c ∧
    ((m.set_building_id c none).set_unit_id c none).walkable c := by
  refine ⟨Iff.rfl, ?_, ?_, ?_⟩
  · rintro ⟨h1, -⟩
    simp [Map.set_unit_id] at h1
  · rintro ⟨-, h2⟩
    simp [Map.set_building_id] at h2
  · constructor <;> simp [Map.set_unit_id, Map.set_building_id]

/-- Witness for C6 on the concrete 1×1 generated map. -/
theorem C6_walkable_iff_unoccupied_witness :
    (map11.walkable (0, 0) ↔ map11._unit_id (0, 0) = none ∧ map11._building_id (0, 0) = none) ∧
    ¬ (map11.set_unit_id (0, 0) (some 3)).walkable (0, 0) ∧
    ¬ (map11.set_building_id (0, 0) (some 4)).walkable (0, 0) ∧
    ((map11.set_building_id (0, 0) none).set_unit_id (0, 0) none).walkable (0, 0) :=
  C6_walkable_iff_unoccupied map11 (0, 0) 3 4 (by decide)

/-- C8 counterexample: `Map(0, 0, 60, 60)` has `columns = 0 ≤ 0`, yet map
generation succeeds (`isSome`, i.e. no `ConfigurationError` — no such error
exists anywhere in the source) while creating no map nodes. -/
theorem C8_counterexample :
    ((Map.init 0 0 60 60).map fun m => m.nodes) = some [] ∧
    ((Map.init 0 0 60 60).map fun m => m.columns) = some 0 ∧
    (Map.init 0 0 60 60).isSome = true := by
  refine ⟨rfl, rfl, rfl⟩

/-- C8 (amended): with nonzero tile dimensions, map generation never fails —
it returns a map (raising nothing), and when the computed `columns` or `rows`
is ≤ 0 the generated node dict is empty.  The only generation-time failure in
the source is the `ZeroDivisionError` from a zero tile dimension. -/
theorem C8_nonpositive_dimensions_silent (width height grid_width grid_height : ℤ)
    (hgw : grid_width ≠ 0) (hgh : grid_height ≠ 0) :
    ∃ m, Map.init width height grid_width grid_height = some m ∧
      ((m.columns ≤ 0 ∨ m.rows ≤ 0) → m.nodes = []) := by
  unfold Map.init
  rw [if_neg hgh, if_neg hgw]
  exact ⟨_, rfl, fun hle => generate_nodes_eq_nil hle⟩

/-- Witness for C8 (amended) at the concrete call `Map(0, 0, 60, 60)`. -/
theorem C8_nonpositive_dimensions_silent_witness :
    ∃ m, Map.init 0 0 60 60 = some m ∧ ((m.columns ≤ 0 ∨ m.rows ≤ 0) → m.nodes = []) :=
  C8_nonpositive_dimensions_silent 0 0 60 60 (by decide) (by decide)

/-- C5 counterexample: after `set_unit_id c (some 1)` then `set_unit_id c none`
on the 1×1 generated map, the coordinate is still a key of the `units` dict
(with stored value `None`) while the node's unit occupancy field is unset —
the claimed key-iff-flag equivalence fails. -/
theorem C5_counterexample :
    (c5Map.units (0, 0)).isSome = true ∧
    c5Map._unit_id (0, 0) = none ∧
    ¬ (((c5Map.units (0, 0)).isSome = true) ↔ ((c5Map._unit_id (0, 0)).isSome = true)) := by
  refine ⟨rfl, rfl, ?_⟩
  intro hiff
  have h2 := hiff.mp rfl
  simp [c5Map, map11, Map.set_unit_id] at h2

/-- C5 (amended): after every sequence of occupancy-setter calls on a generated
map, the reverse-lookup dicts mirror the node fields one-sidedly: a present key
stores exactly the node field's current value (so a set flag implies key
membership), and an absent key implies the flag is unset; but a key written
with `None` remains present with the flag unset, so key membership does not
imply the flag is set. -/
theorem C5_occupancy_dict_mirror (w h gw gh : ℤ) (m0 : Map) (ops : List MapOp)
    (c : GridPosition) (hm : Map.init w h gw gh = some m0) :
    (∀ v, (runMapOps m0 ops).units c = some v → (runMapOps m0 ops)._unit_id c = v) ∧
    ((runMapOps m0 ops).units c = none → (runMapOps m0 ops)._unit_id c = none) ∧
    (∀ v, (runMapOps m0 ops).buildings c = some v → (runMapOps m0 ops)._building_id c = v) ∧
    ((runMapOps m0 ops).buildings c = none → (runMapOps m0 ops)._building_id c = none) ∧
    (((runMapOps m0 ops)._unit_id c).isSome → ((runMapOps m0 ops).units c).isSome) ∧
    (((runMapOps m0 ops)._building_id c).isSome → ((runMapOps m0 ops).buildings c).isSome) := by
  have hmir := dictMirror_runMapOps (init_dictMirror hm) ops
  obtain ⟨h1, h2, h3, h4⟩ := hmir
  refine ⟨fun v hv => h1 c v hv, h2 c, fun v hv => h3 c v hv, h4 c, ?_, ?_⟩
  · intro hs
    rcases hu : (runMapOps m0 ops).units c with - | v
    · rw [h2 c hu] at hs
      simp at hs
    · simp
  · intro hs
    rcases hb : (runMapOps m0 ops).buildings c with - | v
    · rw [h4 c hb] at hs
      simp at hs
    · simp

/-- C4: on every generated map, for every node `a` and every in-bounds neighbor
`b` among the 8 adjacent offsets, the stored traversal cost from `a` to `b`
equals `(1.4 if diagonal else 1.0) * (a's terrain cost + b's terrain cost)`;
and `diagonal a b` is true iff both coordinate components differ. -/
theorem C4_edge_costs :
    (∀ width height grid_width grid_height m,
      Map.init width height grid_width grid_height = some m →
      ∀ a b : GridPosition, inBoundsP m.columns m.rows a →
        b ∈ m.in_bounds (adjacent_offsets.map fun p => (a.1 + p.1, a.2 + p.2)) →
        m.costs a b =
          some ((if diagonal a b then (1.4 : PyFloat) else 1) *
            (m.terrain_cost a + m.terrain_cost b))) ∧
    (∀ a b : GridPosition, diagonal a b = true ↔ (a.1 ≠ b.1 ∧ a.2 ≠ b.2)) := by
  constructor
  · intro w h gw gh m hm a b hina hmem
    obtain ⟨hcols, hrows, ht, -, -, -, -, hcosts, -⟩ := Map.init_fields hm
    simp only [hcosts, ht]
    rw [node_costs_eq]
    rw [Map.in_bounds, hcols, hrows] at hmem
    rw [if_pos hmem]
  · intro a b
    unfold diagonal
    simp

/-- Witness for C4 on the 3×3 generated map, at the diagonal pair
`(0,0)`–`(1,1)`. -/
theorem C4_edge_costs_witness :
    map3.costs (0, 0) (1, 1) =
      some ((if diagonal (0, 0) (1, 1) then (1.4 : PyFloat) else 1) *
        (map3.terrain_cost (0, 0) + map3.terrain_cost (1, 1))) ∧
    (diagonal (0, 0) (1, 1) = true ↔ (((0 : ℤ) ≠ 1) ∧ ((0 : ℤ) ≠ 1))) :=
  ⟨C4_edge_costs.1 180 180 60 60 map3 rfl (0, 0) (1, 1) (by decide) (by decide),
   C4_edge_costs.2 (0, 0) (1, 1)⟩

/-! ### Fog-of-war lemmas -/

lemma foldl_union_eq (rs : List (Finset GridPosition)) :
    ∀ a : Finset GridPosition, rs.foldl (· ∪ ·) a = a ∪ reportsUnion rs := by
  induction rs with
  | nil => intro a; simp [reportsUnion]
  | cons r t ih =>
    intro a
    have h1 : reportsUnion (r :: t) = r ∪ reportsUnion t := by
      unfold reportsUnion
      rw [List.foldl_cons, ih (∅ ∪ r)]
      simp [reportsUnion]
    rw [List.foldl_cons, ih (a ∪ r), h1, Finset.union_assoc]

lemma mem_reportsUnion {rs : List (Finset GridPosition)} {c : GridPosition} :
    c ∈ reportsUnion rs ↔ ∃ q ∈ rs, c ∈ q := by
  induction rs with
  | nil => simp [reportsUnion]
  | cons r t ih =>
    have h1 : reportsUnion (r :: t) = r ∪ reportsUnion t := by
      unfold reportsUnion
      rw [List.foldl_cons, foldl_union_eq t (∅ ∪ r)]
      simp [reportsUnion]
    rw [h1]
    simp [ih]

lemma foldl_reveal_eq (rs : List (Finset GridPosition)) :
    ∀ f : FogOfWar, rs.foldl FogOfWar.reveal_nodes f =
      { f with visible := f.visible ∪ reportsUnion rs } := by
  induction rs with
  | nil => intro f; simp [reportsUnion]
  | cons r t ih =>
    intro f
    have h1 : reportsUnion (r :: t) = r ∪ reportsUnion t := by
      unfold reportsUnion
      rw [List.foldl_cons, foldl_union_eq t (∅ ∪ r)]
      simp [reportsUnion]
    rw [List.foldl_cons, ih (f.reveal_nodes r), h1]
    simp [FogOfWar.reveal_nodes, Finset.union_assoc]

lemma update_clear {f : FogOfWar} {c : GridPosition} (hc : c ∈ f.visible) :
    fog_state f.update c = .CLEAR := by
  have h1 : c ∉ f.update.unexplored := by
    simp [FogOfWar.update, hc]
  have h2 : c ∉ f.update.grids_to_sprites := by
    intro hmem
    simp only [FogOfWar.update, Finset.mem_union, Finset.mem_sdiff, Finset.mem_inter] at hmem
    rcases hmem with ⟨hS, hn⟩ | ⟨⟨hE, hV⟩, -⟩
    · exact hn ⟨hc, hS⟩
    · exact hV hc
  simp [fog_state, h1, h2]

lemma update_dimmed {f : FogOfWar} {c : GridPosition} (hE : c ∈ f.explored)
    (hV : c ∉ f.visible) (hU : c ∉ f.unexplored) : fog_state f.update c = .DIMMED := by
  have h1 : c ∉ f.update.unexplored := by
    simp [FogOfWar.update, hU]
  have h2 : c ∈ f.update.grids_to_sprites := by
    simp only [FogOfWar.update, Finset.mem_union, Finset.mem_sdiff, Finset.mem_inter]
    by_cases hS : c ∈ f.grids_to_sprites
    · left; exact ⟨hS, fun hin => absurd hin.1 hV⟩
    · right
      refine ⟨⟨hE, hV⟩, ?_⟩
      intro hin
      exact hS hin.1
  simp [fog_state, h1, h2]

lemma update_unseen {f : FogOfWar} {c : GridPosition} (hU : c ∈ f.unexplored)
    (hV : c ∉ f.visible) : fog_state f.update c = .UNSEEN := by
  have h1 : c ∈ f.update.unexplored := by
    simp [FogOfWar.update, hU, hV]
  simp [fog_state, h1]

/-- Invariant between frames: the accumulation buffer is empty and every
explored coordinate has left `unexplored`. -/
def FogInv (f : FogOfWar) : Prop :=
  f.visible = ∅ ∧ ∀ c, c ∈ f.explored → c ∉ f.unexplored

lemma fogInv_init (g : Finset GridPosition) : FogInv (FogOfWar.init g) := by
  constructor
  · rfl
  · intro c hc
    simp [FogOfWar.init] at hc

lemma fogInv_frameStep {f : FogOfWar} (hf : FogInv f) (rs : List (Finset GridPosition)) :
    FogInv (frameStep f rs) := by
  unfold frameStep
  rw [foldl_reveal_eq]
  constructor
  · rfl
  · intro c hc hun
    simp only [FogOfWar.update, Finset.mem_union, Finset.mem_sdiff] at hc hun
    rcases hc with hc | hc
    · exact hf.2 c hc hun.1
    · exact hun.2 hc

lemma fogInv_runFrames {f : FogOfWar} (hf : FogInv f)
    (frames : List (List (Finset GridPosition))) : FogInv (runFrames f frames) := by
  induction frames generalizing f with
  | nil => exact hf
  | cons fr t ih => exact ih (fogInv_frameStep hf fr)

lemma runFrames_unexplored_mem {c : GridPosition}
    (frames : List (List (Finset GridPosition))) :
    ∀ {f : FogOfWar}, f.visible = ∅ → (∀ fr ∈ frames, ∀ q ∈ fr, c ∉ q) →
      c ∈ f.unexplored → c ∈ (runFrames f frames).unexplored := by
  induction frames with
  | nil => intro f _ _ hc; exact hc
  | cons fr t ih =>
    intro f hv hrep hc
    have hstep : c ∈ (frameStep f fr).unexplored := by
      unfold frameStep
      rw [foldl_reveal_eq]
      simp only [FogOfWar.update, Finset.mem_sdiff, hv, Finset.empty_union]
      refine ⟨hc, ?_⟩
      rw [mem_reportsUnion]
      rintro ⟨q, hq, hcq⟩
      exact hrep fr (by simp) q hq hcq
    have hvis : (frameStep f fr).visible = ∅ := rfl
    exact ih hvis (fun fr2 h2 => hrep fr2 (by simp [h2])) hstep

lemma fog_state_ne_unseen {f : FogOfWar} {c : GridPosition} :
    fog_state f c ≠ .UNSEEN ↔ c ∉ f.unexplored := by
  unfold fog_state
  by_cases hc : c ∈ f.unexplored
  · simp [hc]
  · simp only [if_neg hc]
    constructor
    · intro _
      exact hc
    · intro _
      by_cases hs : c ∈ f.grids_to_sprites
      · simp only [if_pos hs]
        decide
      · simp only [if_neg hs]
        decide

lemma applyFogOp_unexplored_subset (f : FogOfWar) (op : FogOp) :
    (applyFogOp f op).unexplored ⊆ f.unexplored := by
  cases op with
  | reveal s => exact fun c hc => hc
  | update => exact Finset.sdiff_subset

lemma runFogOps_unexplored_subset (ops : List FogOp) :
    ∀ f : FogOfWar, (runFogOps f ops).unexplored ⊆ f.unexplored := by
  induction ops with
  | nil => intro f; exact fun c hc => hc
  | cons op t ih =>
    intro f
    have h1 := applyFogOp_unexplored_subset f op
    have h2 := ih (applyFogOp f op)
    exact fun c hc => h1 (h2 hc)

/-- C1: after any frame history from a freshly initialized tracker, in a frame
whose observers report the sets `rs`: a coordinate reported by some observer is
CLEAR after that frame's `update()`; a coordinate already in `explored` that no
observer reported is DIMMED; and a coordinate of the map never reported in any
frame is UNSEEN. -/
theorem C1_fog_three_state (g : Finset GridPosition)
    (frames : List (List (Finset GridPosition))) (rs : List (Finset GridPosition))
    (c : GridPosition) :
    ((∃ q ∈ rs, c ∈ q) →
      fog_state (frameStep (runFrames (FogOfWar.init g) frames) rs) c = .CLEAR) ∧
    (c ∈ (runFrames (FogOfWar.init g) frames).explored → (∀ q ∈ rs, c ∉ q) →
      fog_state (frameStep (runFrames (FogOfWar.init g) frames) rs) c = .DIMMED) ∧
    (c ∈ g → (∀ fr ∈ frames, ∀ q ∈ fr, c ∉ q) → (∀ q ∈ rs, c ∉ q) →
      fog_state (frameStep (runFrames (FogOfWar.init g) frames) rs) c = .UNSEEN) := by
  have hinv : FogInv (runFrames (FogOfWar.init g) frames) :=
    fogInv_runFrames (fogInv_init g) frames
  refine ⟨?_, ?_, ?_⟩
  · intro hrep
    unfold frameStep
    rw [foldl_reveal_eq]
    apply update_clear
    simp only [Finset.mem_union]
    right
    exact mem_reportsUnion.mpr hrep
  · intro hE hrep
    unfold frameStep
    rw [foldl_reveal_eq]
    apply update_dimmed
    · exact hE
    · simp only [Finset.mem_union, hinv.1]
      rintro (hv | hv)
      · simp at hv
      · obtain ⟨q, hq, hcq⟩ := mem_reportsUnion.mp hv
        exact hrep q hq hcq
    · exact hinv.2 c hE
  · intro hcg hrepAll hrep
    have hmem : c ∈ (runFrames (FogOfWar.init g) frames).unexplored :=
      runFrames_unexplored_mem frames rfl hrepAll hcg
    unfold frameStep
    rw [foldl_reveal_eq]
    apply update_unseen
    · exact hmem
    · simp only [Finset.mem_union, hinv.1]
      rintro (hv | hv)
      · simp at hv
      · obtain ⟨q, hq, hcq⟩ := mem_reportsUnion.mp hv
        exact hrep q hq hcq

/-- Witness for C1: a 3-tile map; `(0,0)` seen in frame 1 only, `(1,0)` seen in
frame 2 only, `(2,0)` never seen.  After frame 2: `(1,0)` CLEAR, `(0,0)`
DIMMED, `(2,0)` UNSEEN. -/
theorem C1_fog_three_state_witness :
    fog_state (frameStep (runFrames (FogOfWar.init {(0, 0), (1, 0), (2, 0)}) [[{(0, 0)}]])
        [{(1, 0)}]) (1, 0) = .CLEAR ∧
    fog_state (frameStep (runFrames (FogOfWar.init {(0, 0), (1, 0), (2, 0)}) [[{(0, 0)}]])
        [{(1, 0)}]) (0, 0) = .DIMMED ∧
    fog_state (frameStep (runFrames (FogOfWar.init {(0, 0), (1, 0), (2, 0)}) [[{(0, 0)}]])
        [{(1, 0)}]) (2, 0) = .UNSEEN :=
  ⟨(C1_fog_three_state {(0, 0), (1, 0), (2, 0)} [[{(0, 0)}]] [{(1, 0)}] (1, 0)).1
      ⟨{(1, 0)}, by decide, by decide⟩,
   (C1_fog_three_state {(0, 0), (1, 0), (2, 0)} [[{(0, 0)}]] [{(1, 0)}] (0, 0)).2.1
      (by decide) (by decide),
   (C1_fog_three_state {(0, 0), (1, 0), (2, 0)} [[{(0, 0)}]] [{(1, 0)}] (2, 0)).2.2
      (by decide) (by decide) (by decide)⟩

/-- C7: across every sequence of `reveal_nodes` and `update` calls, a
coordinate whose fog state is not UNSEEN never returns to UNSEEN — the
`unexplored` set only ever shrinks, so exploration is permanent. -/
theorem C7_monotonic_exploration (f : FogOfWar) (ops : List FogOp) (c : GridPosition)
    (h : fog_state f c ≠ .UNSEEN) : fog_state (runFogOps f ops) c ≠ .UNSEEN := by
  rw [fog_state_ne_unseen] at h ⊢
  intro hmem
  exact h (runFogOps_unexplored_subset ops f hmem)

/-- Witness for C7: a tile revealed in frame 1 is not UNSEEN afterwards, and
stays non-UNSEEN over a later frame in which nobody reports it. -/
theorem C7_monotonic_exploration_witness :
    fog_state (runFogOps (frameStep (FogOfWar.init {(0, 0), (1, 0)}) [{(0, 0)}])
        [.reveal {(1, 0)}, .update]) (0, 0) ≠ .UNSEEN :=
  C7_monotonic_exploration (frameStep (FogOfWar.init {(0, 0), (1, 0)}) [{(0, 0)}])
    [.reveal {(1, 0)}, .update] (0, 0) (by decide)

/-! ### Pathfinder lemmas -/

lemma heappush_filter_length (e : Option PyFloat × GridPosition)
    (p : Option PyFloat × GridPosition → Bool) :
    ∀ h : List (Option PyFloat × GridPosition),
      ((heappush e h).filter p).length =
        (h.filter p).length + (if p e then 1 else 0) := by
  intro h
  induction h with
  | nil =>
    by_cases hp : p e <;> simp [heappush, List.filter_cons, hp]
  | cons x xs ih =>
    by_cases he : entryLe e x
    · simp only [heappush, if_pos he]
      by_cases hp : p e <;> by_cases hx : p x <;>
        simp [List.filter_cons, hp, hx] <;> omega
    · simp only [heappush, if_neg he]
      by_cases hx : p x <;> simp [List.filter_cons, hx, ih] <;> omega

lemma processAdjs_preserves {m : Map} {hr : GridPosition → GridPosition → PyFloat}
    {endG current g : GridPosition} :
    ∀ (l : List GridPosition) (s s' : SearchState),
      g ∈ s.unexplored._contains →
      processAdjs m hr endG current s l = some s' →
      s'.cost_so_far g = s.cost_so_far g ∧
      s'.previous g = s.previous g ∧
      (s'.unexplored.elements.filter fun e => e.2 = g).length =
        (s.unexplored.elements.filter fun e => e.2 = g).length ∧
      g ∈ s'.unexplored._contains := by
  intro l
  induction l with
  | nil =>
    intro s s' hg h
    simp only [processAdjs, Option.some_inj] at h
    subst h
    exact ⟨rfl, rfl, rfl, hg⟩
  | cons adj rest ih =>
    intro s s' hg h
    rw [processAdjs] at h
    by_cases hmem : adj ∈ s.unexplored._contains
    · rw [if_pos hmem] at h
      exact ih s s' hg h
    · rw [if_neg hmem] at h
      rcases hc : m.costs current adj with - | c
      · simp only [hc] at h
        exact Option.noConfusion h
      · simp only [hc] at h
        have hne : ¬ (g = adj) := fun hEq => hmem (hEq ▸ hg)
        have hne2 : ¬ (adj = g) := fun hEq => hne hEq.symm
        by_cases hguard : ltInf (addInf (s.cost_so_far current) c) (s.cost_so_far adj)
        · rw [if_pos hguard] at h
          obtain ⟨h1, h2, h3, h4⟩ := ih _ s' (List.mem_cons_of_mem _ hg) h
          refine ⟨?_, ?_, ?_, h4⟩
          · rw [h1]
            simp [hne]
          · rw [h2]
            simp [hne]
          · rw [h3]
            simp only [PriorityQueue.put]
            rw [heappush_filter_length]
            simp [hne2]
        · rw [if_neg hguard] at h
          exact ih s s' hg h

/-- C3 (amended): the search never relaxes an already-discovered coordinate.
During any iteration of the `while unexplored:` loop, every coordinate `g`
already in the frontier's `_contains` membership set keeps its recorded cost
and predecessor unchanged, is never re-inserted into the heap (its number of
heap entries does not grow), and stays in `_contains`.  Neighbors already in
`_contains` are filtered out before the relaxation test, and `_contains` never
shrinks, so each coordinate is enqueued at most once per search and its
cost/predecessor are written only at first discovery — even when a strictly
better total cost through the popped node exists. -/
theorem C3_queued_coordinate_never_updated (m : Map)
    (hr : GridPosition → GridPosition → PyFloat) (endG : GridPosition)
    (s s' : SearchState) (g : GridPosition)
    (hg : g ∈ s.unexplored._contains)
    (hstep : searchStep m hr endG s = some (.continueSearch s')) :
    s'.cost_so_far g = s.cost_so_far g ∧
    s'.previous g = s.previous g ∧
    (s'.unexplored.elements.filter fun e => e.2 = g).length ≤
      (s.unexplored.elements.filter fun e => e.2 = g).length ∧
    g ∈ s'.unexplored._contains := by
  rcases helems : s.unexplored.elements with - | ⟨e, rest⟩
  · unfold searchStep at hstep
    simp only [helems] at hstep
    exact StepResult.noConfusion (Option.some_inj.mp hstep)
  · obtain ⟨pri, current⟩ := e
    unfold searchStep at hstep
    simp only [helems] at hstep
    by_cases hEnd : current = endG
    · rw [if_pos hEnd] at hstep
      rcases hrec : reconstruct_path m.columns m.rows s.previous current
          (s.unexplored._contains.length + 1) with - | pp <;>
        simp [hrec] at hstep
    · rw [if_neg hEnd] at hstep
      by_cases hin : inBoundsP m.columns m.rows current
      · rw [if_pos hin] at hstep
        rcases hpa : processAdjs m hr endG current
            { s with unexplored := { elements := rest, _contains := s.unexplored._contains } }
            (m.node_walkable_adjacent current) with - | s1
        · simp [hpa] at hstep
        · rw [hpa] at hstep
          have hs1 : s1 = s' := by
            simpa using hstep
          subst hs1
          obtain ⟨h1, h2, h3, h4⟩ :=
            processAdjs_preserves (m.node_walkable_adjacent current)
              { s with unexplored := { elements := rest, _contains := s.unexplored._contains } }
              s1 hg hpa
          refine ⟨h1, h2, ?_, h4⟩
          simp only [h3, helems]
          by_cases hcur : current = g <;> simp [List.filter_cons, hcur]
      · rw [if_neg hin] at hstep
        simp at hstep

/-- The state after the first iteration of `find_path map3 hypotApprox (0,0) (2,2)`
(extracted for the witness below). -/
def c3StateOne : SearchState :=
  match searchStep map3 hypotApprox (2, 2) c3Init with
  | some (.continueSearch s) => s
  | _ => c3Init

/-- Witness for the amended C3 at the concrete first iteration of the
`map3` search: the start coordinate is queued, and the step leaves its cost,
predecessor and heap entries unchanged. -/
theorem C3_queued_coordinate_never_updated_witness :
    c3StateOne.cost_so_far (0, 0) = c3Init.cost_so_far (0, 0) ∧
    c3StateOne.previous (0, 0) = c3Init.previous (0, 0) ∧
    (c3StateOne.unexplored.elements.filter fun e => e.2 = (0, 0)).length ≤
      (c3Init.unexplored.elements.filter fun e => e.2 = (0, 0)).length ∧
    (0, 0) ∈ c3StateOne.unexplored._contains :=
  C3_queued_coordinate_never_updated map3 hypotApprox (2, 2) c3Init c3StateOne (0, 0)
    (by decide) rfl

/-- C3 counterexample: in `find_path map3 hypotApprox (0,0) (2,2)` on the fully
walkable 3×3 map, the third iteration pops `(0,1)`, whose walkable neighbor
`(0,2)` was already discovered from `(1,1)` at cost `5.6` (two diagonal steps)
and sits in the frontier; the strictly better total `cost_so_far[(0,1)] + 2 =
4 < 5.6` through `(0,1)` exists and satisfies the relaxation guard — yet after
the iteration `(0,2)`'s best-known cost is still `5.6`, its predecessor is
still `(1,1)`, and it has not been re-inserted (still exactly one heap entry):
the claimed update-and-reinsert never happens because `(0,2)` is filtered out
by the frontier membership set before the relaxation test. -/
theorem C3_counterexample :
    (c3AfterTwo.map fun s => s.unexplored.elements.head?.map fun e => e.2) =
      some (some (0, 1)) ∧
    (c3AfterTwo.map fun s => decide ((0, 2) ∈ map3.node_walkable_adjacent (0, 1))) =
      some true ∧
    (c3AfterTwo.map fun s => decide ((0, 2) ∈ s.unexplored._contains)) = some true ∧
    eqInf (map3.costs (0, 1) (0, 2)) (some 2) = true ∧
    (c3AfterTwo.map fun s => eqInf (s.cost_so_far (0, 1)) (some 2)) = some true ∧
    (c3AfterTwo.map fun s => eqInf (s.cost_so_far (0, 2)) (some 5.6)) = some true ∧
    (c3AfterTwo.map fun s => s.previous (0, 2)) = some (some (1, 1)) ∧
    (c3AfterTwo.map fun s =>
      ltInf (addInf (s.cost_so_far (0, 1)) 2) (s.cost_so_far (0, 2))) = some true ∧
    (c3AfterTwo.map fun s =>
      (s.unexplored.elements.filter fun e => e.2 = (0, 2)).length) = some 1 ∧
    (c3AfterThree.map fun s => eqInf (s.cost_so_far (0, 2)) (some 5.6)) = some true ∧
    (c3AfterThree.map fun s => s.previous (0, 2)) = some (some (1, 1)) ∧
    (c3AfterThree.map fun s =>
      (s.unexplored.elements.filter fun e => e.2 = (0, 2)).length) = some 1 := by
  decide

lemma heappush_length (e : Option PyFloat × GridPosition) :
    ∀ h : List (Option PyFloat × GridPosition), (heappush e h).length = h.length + 1 := by
  intro h
  induction h with
  | nil => rfl
  | cons x xs ih =>
    by_cases he : entryLe e x <;> simp [heappush, he, ih]

lemma mem_heappush {e x : Option PyFloat × GridPosition} :
    ∀ {h : List (Option PyFloat × GridPosition)}, x ∈ heappush e h ↔ x = e ∨ x ∈ h := by
  intro h
  induction h with
  | nil => simp [heappush]
  | cons y ys ih =>
    by_cases he : entryLe e y
    · simp only [heappush, if_pos he, List.mem_cons]
    · simp only [heappush, if_neg he, List.mem_cons, ih]
      tauto

lemma node_walkable_adjacent_mem {m : Map} {a b : GridPosition}
    (h : b ∈ m.node_walkable_adjacent a) :
    b ∈ inBoundsFilter m.columns m.rows
        (adjacent_offsets.map fun p => (a.1 + p.1, a.2 + p.2)) ∧ m.walkable b := by
  unfold Map.node_walkable_adjacent Map.walkable_adjacent Map.adjacent_nodes Map.in_bounds at h
  rw [adjacent_grids_of_position] at h
  rw [List.mem_filter] at h
  exact ⟨h.1, of_decide_eq_true h.2⟩

lemma node_walkable_adjacent_inBounds {m : Map} {a b : GridPosition}
    (h : b ∈ m.node_walkable_adjacent a) : inBoundsP m.columns m.rows b :=
  (mem_inBoundsFilter.mp (node_walkable_adjacent_mem h).1).2

lemma mem_gridFinset {m : Map} {b : GridPosition} :
    b ∈ gridFinset m ↔ inBoundsP m.columns m.rows b := by
  unfold gridFinset
  rw [List.mem_toFinset, mem_generate_nodes]

lemma runMapOps_columns (ops : List MapOp) :
    ∀ m0 : Map, (runMapOps m0 ops).columns = m0.columns := by
  induction ops with
  | nil => intro m0; rfl
  | cons op t ih =>
    intro m0
    have h1 : (applyMapOp m0 op).columns = m0.columns := by cases op <;> rfl
    simpa [runMapOps, h1] using ih (applyMapOp m0 op)

lemma runMapOps_rows (ops : List MapOp) :
    ∀ m0 : Map, (runMapOps m0 ops).rows = m0.rows := by
  induction ops with
  | nil => intro m0; rfl
  | cons op t ih =>
    intro m0
    have h1 : (applyMapOp m0 op).rows = m0.rows := by cases op <;> rfl
    simpa [runMapOps, h1] using ih (applyMapOp m0 op)

lemma runMapOps_costs (ops : List MapOp) :
    ∀ m0 : Map, (runMapOps m0 ops).costs = m0.costs := by
  induction ops with
  | nil => intro m0; rfl
  | cons op t ih =>
    intro m0
    have h1 : (applyMapOp m0 op).costs = m0.costs := by cases op <;> rfl
    simpa [runMapOps, h1] using ih (applyMapOp m0 op)

lemma costs_isSome_of_generated {w h gw gh : ℤ} {m0 : Map} (ops : List MapOp)
    (hm : Map.init w h gw gh = some m0) :
    ∀ a b, b ∈ (runMapOps m0 ops).node_walkable_adjacent a →
      ((runMapOps m0 ops).costs a b).isSome = true := by
  intro a b hb
  have hmem := (node_walkable_adjacent_mem hb).1
  obtain ⟨hcols, hrows, -, -, -, -, -, hcosts, -⟩ := Map.init_fields hm
  rw [runMapOps_columns ops m0, hcols, runMapOps_rows ops m0, hrows] at hmem
  rw [runMapOps_costs ops m0, hcosts]
  simp only []
  rw [node_costs_eq, if_pos hmem]
  rfl

lemma processAdjs_total {m : Map} {hr : GridPosition → GridPosition → PyFloat}
    {endG current : GridPosition} :
    ∀ (l : List GridPosition) (s : SearchState),
      (∀ adj ∈ l, (m.costs current adj).isSome = true) →
      (∀ adj ∈ l, inBoundsP m.columns m.rows adj) →
      ∃ s', processAdjs m hr endG current s l = some s' ∧
        (∀ e ∈ s'.unexplored.elements, e ∈ s.unexplored.elements ∨ e.2 ∈ l) ∧
        searchMeasure m s' ≤ searchMeasure m s := by
  intro l
  induction l with
  | nil =>
    intro s _ _
    exact ⟨s, rfl, fun e he => Or.inl he, le_refl _⟩
  | cons adj rest ih =>
    intro s hl hin
    rw [processAdjs]
    by_cases hmem : adj ∈ s.unexplored._contains
    · rw [if_pos hmem]
      obtain ⟨s', h1, h2, h3⟩ := ih s (fun x hx => hl x (List.mem_cons_of_mem _ hx))
        (fun x hx => hin x (List.mem_cons_of_mem _ hx))
      exact ⟨s', h1, fun e he => (h2 e he).imp id (List.mem_cons_of_mem _), h3⟩
    · rw [if_neg hmem]
      have hsome := hl adj (List.mem_cons_self _ _)
      rcases hc : m.costs current adj with - | c
      · rw [hc] at hsome
        simp at hsome
      · simp only [hc]
        by_cases hguard : ltInf (addInf (s.cost_so_far current) c) (s.cost_so_far adj)
        · rw [if_pos hguard]
          set s1 : SearchState :=
            { unexplored := s.unexplored.put adj
                (addInf (addInf (s.cost_so_far current) c) (hr adj endG * 1.001))
              previous := fun g => if g = adj then some current else s.previous g
              cost_so_far := fun g =>
                if g = adj then addInf (s.cost_so_far current) c else s.cost_so_far g }
            with hs1
          have hmeas1 : searchMeasure m s1 ≤ searchMeasure m s := by
            unfold searchMeasure
            have hlen : s1.unexplored.elements.length = s.unexplored.elements.length + 1 := by
              rw [hs1]
              simp only [PriorityQueue.put]
              exact heappush_length _ _
            have hcont : s1.unexplored._contains = adj :: s.unexplored._contains := by
              rw [hs1]
              simp [PriorityQueue.put]
            have hsd : adj ∈ gridFinset m \ s.unexplored._contains.toFinset := by
              rw [Finset.mem_sdiff, mem_gridFinset]
              refine ⟨hin adj (List.mem_cons_self _ _), ?_⟩
              rw [List.mem_toFinset]
              exact hmem
            have hcard : (gridFinset m \ s1.unexplored._contains.toFinset).card + 1 =
                (gridFinset m \ s.unexplored._contains.toFinset).card := by
              rw [hcont, List.toFinset_cons]
              have hdiff : gridFinset m \ insert adj s.unexplored._contains.toFinset =
                  (gridFinset m \ s.unexplored._contains.toFinset).erase adj := by
                ext x
                simp only [Finset.mem_sdiff, Finset.mem_insert, Finset.mem_erase]
                tauto
              rw [hdiff]
              exact Finset.card_erase_add_one hsd
            omega
          obtain ⟨s', h1, h2, h3⟩ := ih s1 (fun x hx => hl x (List.mem_cons_of_mem _ hx))
            (fun x hx => hin x (List.mem_cons_of_mem _ hx))
          refine ⟨s', h1, ?_, le_trans h3 hmeas1⟩
          intro e he
          rcases h2 e he with hmem1 | hadj1
          · have : e ∈ s1.unexplored.elements := hmem1
            rw [hs1] at this
            simp only [PriorityQueue.put] at this
            rcases mem_heappush.mp this with hEq | hold
            · right
              rw [hEq]
              exact List.mem_cons_self _ _
            · exact Or.inl hold
          · exact Or.inr (List.mem_cons_of_mem _ hadj1)
        · rw [if_neg hguard]
          obtain ⟨s', h1, h2, h3⟩ := ih s (fun x hx => hl x (List.mem_cons_of_mem _ hx))
            (fun x hx => hin x (List.mem_cons_of_mem _ hx))
          exact ⟨s', h1, fun e he => (h2 e he).imp id (List.mem_cons_of_mem _), h3⟩

lemma findPathAux_empty_of_unreachable {m : Map} {hr : GridPosition → GridPosition → PyFloat}
    {start endG : GridPosition}
    (hcosts : ∀ a b, b ∈ m.node_walkable_adjacent a → (m.costs a b).isSome = true)
    (hroute : ¬ walkableRoute m start endG) :
    ∀ (fuel : ℕ) (s : SearchState),
      (∀ e ∈ s.unexplored.elements,
        walkableRoute m start e.2 ∧ inBoundsP m.columns m.rows e.2) →
      searchMeasure m s < fuel →
      findPathAux m hr endG s fuel = some [] := by
  intro fuel
  induction fuel with
  | zero =>
    intro s _ hlt
    omega
  | succ f ih =>
    intro s hinv hlt
    rcases helems : s.unexplored.elements with - | ⟨e, rest⟩
    · have hstep : searchStep m hr endG s = some (.finished []) := by
        unfold searchStep
        simp only [helems]
      rw [findPathAux, hstep]
    · obtain ⟨pri, current⟩ := e
      have hcure := hinv (pri, current) (by rw [helems]; exact List.mem_cons_self _ _)
      have hcur : walkableRoute m start current := hcure.1
      have hinb : inBoundsP m.columns m.rows current := hcure.2
      have hne : current ≠ endG := fun hEq => hroute (hEq ▸ hcur)
      obtain ⟨s', hpa, hheap, hmeas⟩ :=
        processAdjs_total (m.node_walkable_adjacent current)
          { s with unexplored := { elements := rest, _contains := s.unexplored._contains } }
          (fun adj ha => hcosts current adj ha)
          (fun adj ha => node_walkable_adjacent_inBounds ha)
      have hstep : searchStep m hr endG s = some (.continueSearch s') := by
        unfold searchStep
        simp only [helems]
        rw [if_neg hne, if_pos hinb, hpa]
        rfl
      rw [findPathAux, hstep]
      apply ih s'
      · intro e' he'
        rcases hheap e' he' with hmem | hadj
        · exact hinv e' (by rw [helems]; exact List.mem_cons_of_mem _ hmem)
        · exact ⟨Relation.ReflTransGen.tail hcur hadj, node_walkable_adjacent_inBounds hadj⟩
      · have h1 : searchMeasure m
            { s with unexplored := { elements := rest, _contains := s.unexplored._contains } }
              + 1 = searchMeasure m s := by
          unfold searchMeasure
          rw [helems]
          simp
          omega
        omega

/-- C2 (amended): on every generated map, after any sequence of occupancy
mutations, for every heuristic, every in-bounds start, and every goal with no
walkable route from start (a chain of `walkable_adjacent` steps; the start
tile's own occupancy is irrelevant since expansion never checks it),
`find_path` runs to completion without raising and returns the empty path.
The fuel bound `2·|nodes| + 2` always suffices, so the `while` loop terminates.
The claim's parenthetical "in particular if every neighbor of goal is
occupied" is dropped: it fails when start is itself the occupied neighbor
(see the counterexample). -/
theorem C2_no_route_returns_empty (w h gw gh : ℤ) (m0 : Map) (ops : List MapOp)
    (hr : GridPosition → GridPosition → PyFloat) (start endG : GridPosition) (fuel : ℕ)
    (hm : Map.init w h gw gh = some m0)
    (hstart : inBoundsP (runMapOps m0 ops).columns (runMapOps m0 ops).rows start)
    (hroute : ¬ walkableRoute (runMapOps m0 ops) start endG)
    (hfuel : 2 * (gridFinset (runMapOps m0 ops)).card + 2 ≤ fuel) :
    find_path (runMapOps m0 ops) hr start endG fuel = some [] := by
  unfold find_path
  apply findPathAux_empty_of_unreachable (costs_isSome_of_generated ops hm) hroute
  · intro e he
    simp only [PriorityQueue.put, heappush, List.mem_singleton] at he
    rw [he]
    exact ⟨Relation.ReflTransGen.refl, hstart⟩
  · unfold searchMeasure
    simp only [PriorityQueue.put, heappush]
    have hle : ((gridFinset (runMapOps m0 ops)) \ [start].toFinset).card ≤
        (gridFinset (runMapOps m0 ops)).card :=
      Finset.card_le_card (Finset.sdiff_subset)
    simp only [List.length_singleton]
    omega

/-- Witness for C2 (amended) on the generated 2×1 map whose goal tile is
occupied: the goal is unreachable from the start and `find_path` returns the
empty path. -/
theorem C2_no_route_returns_empty_witness :
    find_path (runMapOps map21 [.setUnit (1, 0) (some 1)]) hypotApprox (0, 0) (1, 0) 6 =
      some [] := by
  apply C2_no_route_returns_empty 120 60 60 60 map21 [.setUnit (1, 0) (some 1)] hypotApprox
    (0, 0) (1, 0) 6 rfl (by decide)
  · intro hR
    rcases Relation.ReflTransGen.cases_head hR with hEq | ⟨c, hstep, -⟩
    · exact absurd hEq (by decide)
    · have hempty :
          (runMapOps map21 [MapOp.setUnit (1, 0) (some 1)]).node_walkable_adjacent (0, 0) =
            [] := by decide
      unfold walkStep at hstep
      rw [hempty] at hstep
      exact (List.not_mem_nil c) hstep
  · decide

/-- C2 counterexample: on the generated 2×1 map with the start tile `(0,0)`
occupied (by the seeking unit itself), every in-bounds neighbor of the goal
`(1,0)` is occupied — its only neighbor is `(0,0)` — and start ≠ goal, yet
`find_path` returns the non-empty two-step path, not the empty sequence:
expansion from the start never checks the start tile's own occupancy, so
"every neighbor of goal is occupied" does not imply unreachability. -/
theorem C2_counterexample :
    (map21.set_unit_id (0, 0) (some 1)).in_bounds
        (adjacent_grids (grid_to_position (1, 0)).1 (grid_to_position (1, 0)).2) =
      [(0, 0)] ∧
    (∀ n ∈ (map21.set_unit_id (0, 0) (some 1)).in_bounds
        (adjacent_grids (grid_to_position (1, 0)).1 (grid_to_position (1, 0)).2),
      ¬ (map21.set_unit_id (0, 0) (some 1)).walkable n) ∧
    ((0, 0) : GridPosition) ≠ (1, 0) ∧
    find_path (map21.set_unit_id (0, 0) (some 1)) hypotApprox (0, 0) (1, 0) 6 =
      some [(30, 30), (90, 30)] ∧
    find_path (map21.set_unit_id (0, 0) (some 1)) hypotApprox (0, 0) (1, 0) 6 ≠
      some [] := by
  refine ⟨by decide, by decide, by decide, by decide, by decide⟩

/-- Witness for C5 (amended) on the 1×1 generated map after setting and then
clearing the unit occupancy of its node. -/
theorem C5_occupancy_dict_mirror_witness :
    (∀ v, (runMapOps map11 [.setUnit (0, 0) (some 1), .setUnit (0, 0) none]).units (0, 0) =
        some v →
      (runMapOps map11 [.setUnit (0, 0) (some 1), .setUnit (0, 0) none])._unit_id (0, 0) = v) ∧
    ((runMapOps map11 [.setUnit (0, 0) (some 1), .setUnit (0, 0) none]).units (0, 0) = none →
      (runMapOps map11 [.setUnit (0, 0) (some 1), .setUnit (0, 0) none])._unit_id (0, 0) =
        none) ∧
    (∀ v, (runMapOps map11 [.setUnit (0, 0) (some 1), .setUnit (0, 0) none]).buildings (0, 0) =
        some v →
      (runMapOps map11 [.setUnit (0, 0) (some 1),
        .setUnit (0, 0) none])._building_id (0, 0) = v) ∧
    ((runMapOps map11 [.setUnit (0, 0) (some 1), .setUnit (0, 0) none]).buildings (0, 0) =
        none →
      (runMapOps map11 [.setUnit (0, 0) (some 1),
        .setUnit (0, 0) none])._building_id (0, 0) = none) ∧
    (((runMapOps map11 [.setUnit (0, 0) (some 1),
        .setUnit (0, 0) none])._unit_id (0, 0)).isSome →
      ((runMapOps map11 [.setUnit (0, 0) (some 1),
        .setUnit (0, 0) none]).units (0, 0)).isSome) ∧
    (((runMapOps map11 [.setUnit (0, 0) (some 1),
        .setUnit (0, 0) none])._building_id (0, 0)).isSome →
      ((runMapOps map11 [.setUnit (0, 0) (some 1),
        .setUnit (0, 0) none]).buildings (0, 0)).isSome) :=
  C5_occupancy_dict_mirror 60 60 60 60 map11
    [.setUnit (0, 0) (some 1), .setUnit (0, 0) none] (0, 0) rfl
